import Mathlib

/-!
Shallow embedding of libplacebo's mpv custom-shader subsystem
(src/shaders/custom.c): the RPN size-expression parser and evaluator, the
hook and texture section parsers, and the hook execution dispatcher.

Modelling conventions: document text is `List Char`; C `float` values are
exact rationals (`ℚ`), so IEEE rounding and overflow are not modelled and
the only non-finite dyadic result is division by zero; machine integers are
`ℤ`/`ℕ`. The byte-slice helpers (`bstr_*`) and `sscanf` are vendored by the
repository outside the staged source file, so they are modelled from the
spec's description of the lexical utilities where marked.
-/

namespace Custom

/-- Document text: a byte slice modelled as a list of characters. -/
abbrev Str := List Char

/-- Modelled from the spec: whitespace recognition used by the strip
operation (C `isspace`). -/
def isSpaceC (c : Char) : Bool :=
  c = ' ' || c = '\t' || c = '\n' || c = '\r' || c = '\x0b' || c = '\x0c'

/-- Modelled from the spec: strip whitespace from both ends (C `bstr_strip`). -/
def bstr_strip (s : Str) : Str :=
  ((s.dropWhile isSpaceC).reverse.dropWhile isSpaceC).reverse

/-- Helper for prefix matching: `eats p s` is the rest of `s` after the
leading occurrence of `p`, or `none` when `p` does not lead `s`. -/
def eats : Str → Str → Option Str
  | [], s => some s
  | _ :: _, [] => none
  | p :: ps, c :: cs => if c = p then eats ps cs else none

/-- Modelled from the spec: eat a leading literal (C `bstr_eatstart0`):
`some rest` exactly when `pre` leads `s`. -/
def bstr_eatstart0 (s pre : Str) : Option Str :=
  eats pre s

/-- Modelled from the spec: eat a trailing literal (C `bstr_eatend0`):
`some front` exactly when `sfx` ends `s`. -/
def bstr_eatend0 (s sfx : Str) : Option Str :=
  match eats sfx.reverse s.reverse with
  | some r => some r.reverse
  | none => none

/-- Modelled from the spec: does `pre` lead `s` (C `bstr_startswith0`). -/
def bstr_startswith0 (s pre : Str) : Bool :=
  (eats pre s).isSome

/-- Modelled from the spec: split at the first occurrence of a character
(C `bstr_splitchar`): the part before it and the rest after it; when the
character is absent, all of `s` and `[]`. -/
def bstr_splitchar (c : Char) : Str → Str × Str
  | [] => ([], [])
  | x :: xs =>
    if x = c then ([], xs)
    else
      let r := bstr_splitchar c xs
      (x :: r.1, r.2)

/-- Modelled from the spec: first line of `s` (keeping its newline) and the
rest after it (C `bstr_getline`). -/
def bstr_getline : Str → Str × Str
  | [] => ([], [])
  | c :: cs =>
    if c = '\n' then ([c], cs)
    else
      let r := bstr_getline cs
      (c :: r.1, r.2)

/-- Modelled from the spec: split on the first occurrence of the token `tok`
(C `bstr_split_tok`): `(before, after-the-token, found)`; when absent,
`(s, [], false)`. -/
def bstr_split_tok (s tok : Str) : Str × Str × Bool :=
  match eats tok s with
  | some rest => ([], rest, true)
  | none =>
    match s with
    | [] => ([], [], false)
    | c :: cs =>
      let r := bstr_split_tok cs tok
      (c :: r.1, r.2.1, r.2.2)

/-! The size-expression sub-language (custom.c lines 27-221). -/

/-- C `enum szexp_op`. -/
inductive szexp_op where
  | opAdd | opSub | opMul | opDiv | opNot | opGt | opLt
deriving DecidableEq

/-- C `struct szexp` (tag plus union payload). -/
inductive szexp where
  | szEnd
  | szConst (cval : ℚ)
  | szVarW (varname : Str)
  | szVarH (varname : Str)
  | szOp2 (op : szexp_op)
  | szOp1 (op : szexp_op)
deriving DecidableEq

/-- C `MAX_SZEXP_SIZE`. -/
def MAX_SZEXP_SIZE : ℕ := 32

/-- Word splitting of `parse_rpn_szexpr`'s loop (custom.c lines 87-90):
iterate `bstr_splitchar ' '` while text remains, stripping each word. The
fuel argument bounds the recursion; one character is consumed per round, so
`length + 1` rounds reach the end. -/
def szwords_go : ℕ → Str → List Str
  | 0, _ => []
  | fuel + 1, line =>
    if line = [] then []
    else
      let r := bstr_splitchar ' ' line
      bstr_strip r.1 :: szwords_go fuel r.2

/-- All stripped words of a size-expression line. -/
def szwords (line : Str) : List Str :=
  szwords_go (line.length + 1) line

/-- The non-empty stripped words: exactly the tokens the C loop translates
(empty words are skipped before the capacity check). -/
def szTokens (line : Str) : List Str :=
  (szwords line).filter (fun w => !w.isEmpty)

/-- Modelled from the spec: `bstr_sscanf(word, "%f", ...)` on a word whose
first character is a digit: the leading run of digits with an optional
fractional part; exponents and IEEE rounding are not modelled. -/
def sscanf_float_val (w : Str) : Option ℚ :=
  let ds := w.takeWhile Char.isDigit
  let rest := w.dropWhile Char.isDigit
  if ds.isEmpty then none
  else
    let ip : ℕ := ds.foldl (fun a c => 10 * a + (c.toNat - 48)) 0
    match rest with
    | '.' :: r2 =>
      let fs := r2.takeWhile Char.isDigit
      let fp : ℕ := fs.foldl (fun a c => 10 * a + (c.toNat - 48)) 0
      some (mkRat (ip * 10 ^ fs.length + fp) (10 ^ fs.length))
    | _ => some (mkRat ip 1)

/-- Translation of one word of an RPN line (custom.c lines 97-127): suffix
checks `.w`/`.width`/`.h`/`.height` first, then the single-character
operators by first character, then decimal literals, else failure. -/
def parse_szexp_token (word : Str) : Option szexp :=
  match bstr_eatend0 word ".w".toList with
  | some name => some (.szVarW name)
  | none =>
  match bstr_eatend0 word ".width".toList with
  | some name => some (.szVarW name)
  | none =>
  match bstr_eatend0 word ".h".toList with
  | some name => some (.szVarH name)
  | none =>
  match bstr_eatend0 word ".height".toList with
  | some name => some (.szVarH name)
  | none =>
  match word with
  | [] => none
  | c :: _ =>
    if c = '+' then some (.szOp2 .opAdd)
    else if c = '-' then some (.szOp2 .opSub)
    else if c = '*' then some (.szOp2 .opMul)
    else if c = '/' then some (.szOp2 .opDiv)
    else if c = '!' then some (.szOp1 .opNot)
    else if c = '>' then some (.szOp2 .opGt)
    else if c = '<' then some (.szOp2 .opLt)
    else if '0' ≤ c ∧ c ≤ '9' then
      match sscanf_float_val word with
      | some v => some (.szConst v)
      | none => none
    else none

/-- The token loop of C `parse_rpn_szexpr` over the split tokens: each token
is written into slot `pos` of the caller's buffer (`out[pos++] = exp`); the
capacity check precedes the write; no `szEnd` terminator is ever written. -/
def parse_rpn_go : List Str → ℕ → List szexp → Option (List szexp)
  | [], _, out => some out
  | w :: ws, pos, out =>
    if MAX_SZEXP_SIZE ≤ pos then none
    else
      match parse_szexp_token w with
      | some e => parse_rpn_go ws (pos + 1) (out.set pos e)
      | none => none

/-- C `parse_rpn_szexpr` (custom.c lines 83-131): split the line on spaces,
strip, skip empty words, and translate each token in order into the 32-slot
program buffer `out`. -/
def parse_rpn_szexpr (line : Str) (out : List szexp) : Option (List szexp) :=
  parse_rpn_go (szTokens line) 0 out

/-- A zeroed 32-slot program buffer (C zero-initialisation: tag 0 = END). -/
def rpn_zero : List szexp := List.replicate MAX_SZEXP_SIZE .szEnd

/-- Dyadic evaluation with the `isfinite` check of custom.c lines 173-190:
`op1` is the deeper operand (popped second), matching the C pop order. Over
exact rationals the only non-finite result is division by zero; the
`abort()` on a non-dyadic operator is modelled as failure. -/
def szexp_apply_op2 (op : szexp_op) (op1 op2 : ℚ) : Option ℚ :=
  match op with
  | .opAdd => some (op1 + op2)
  | .opSub => some (op1 - op2)
  | .opMul => some (op1 * op2)
  | .opDiv => if op2 = 0 then none else some (op1 / op2)
  | .opGt => some (if op1 > op2 then 1 else 0)
  | .opLt => some (if op1 < op2 then 1 else 0)
  | .opNot => none

/-- Monadic evaluation (custom.c lines 161-164): C `!x`; the `abort()` on a
non-monadic operator is modelled as failure. -/
def szexp_apply_op1 (op : szexp_op) (x : ℚ) : Option ℚ :=
  match op with
  | .opNot => some (if x = 0 then 1 else 0)
  | _ => none

/-- The caller-supplied name lookup of the evaluator: name to (width, height). -/
abbrev szLookup := Str → Option (ℚ × ℚ)

/-- The token loop of C `pl_eval_szexpr` (custom.c lines 143-210): run until
`szEnd` or the end of the program, threading the stack (top first);
underflow, a failed operator application and a failed lookup abort. -/
def szexp_run (lookup : szLookup) : List szexp → List ℚ → Option (List ℚ)
  | [], stack => some stack
  | e :: rest, stack =>
    match e with
    | .szEnd => some stack
    | .szConst v => szexp_run lookup rest (v :: stack)
    | .szOp1 op =>
      match stack with
      | [] => none
      | x :: s =>
        match szexp_apply_op1 op x with
        | some r => szexp_run lookup rest (r :: s)
        | none => none
    | .szOp2 op =>
      match stack with
      | b :: a :: s =>
        match szexp_apply_op2 op a b with
        | some r => szexp_run lookup rest (r :: s)
        | none => none
      | _ => none
    | .szVarW n =>
      match lookup n with
      | some sz => szexp_run lookup rest (sz.1 :: stack)
      | none => none
    | .szVarH n =>
      match lookup n with
      | some sz => szexp_run lookup rest (sz.2 :: stack)
      | none => none

/-- C `pl_eval_szexpr` (custom.c lines 135-221): run the program on an empty
stack; exactly one value must remain ("malformed stack" otherwise). -/
def pl_eval_szexpr (lookup : szLookup) (expr : List szexp) : Option ℚ :=
  match szexp_run lookup expr [] with
  | some [r] => some r
  | _ => none

/-- The empty lookup (no named textures). -/
def lookup_none : szLookup := fun _ => none

/-! The hook-section parser (custom.c lines 223-354). -/

/-- C `struct pl_transform2x2` (2x2 matrix plus offset vector). -/
structure pl_transform2x2 where
  m00 : ℚ
  m01 : ℚ
  m10 : ℚ
  m11 : ℚ
  c0 : ℚ
  c1 : ℚ
deriving DecidableEq

/-- C `pl_transform2x2_identity`. -/
def pl_transform2x2_identity : pl_transform2x2 := ⟨1, 0, 0, 1, 0, 0⟩

/-- C `SHADER_MAX_HOOKS`. -/
def SHADER_MAX_HOOKS : ℕ := 16

/-- C `SHADER_MAX_BINDS`. -/
def SHADER_MAX_BINDS : ℕ := 16

/-- C `struct custom_shader_hook`. The fixed 16-entry `bstr` arrays are
modelled as the lists of the entries actually appended (unset slots are NULL
in C and terminate every consuming loop); the NULL/set distinction of
`save_tex` is an `Option`. -/
structure custom_shader_hook where
  pass_desc : Str
  hook_tex : List Str
  bind_tex : List Str
  save_tex : Option Str
  pass_body : Str
  offset : pl_transform2x2
  components : ℤ
  width : List szexp
  height : List szexp
  cond : List szexp
  is_compute : Bool
  block_w : ℤ
  block_h : ℤ
  threads_w : ℤ
  threads_h : ℤ
deriving DecidableEq

/-- The designated initialiser of `parse_hook` (custom.c lines 226-232):
defaults plus zero-initialisation of the remaining fields (an all-zero
program buffer reads as an immediate END). -/
def hook_defaults : custom_shader_hook where
  pass_desc := "(unknown)".toList
  hook_tex := []
  bind_tex := []
  save_tex := none
  pass_body := []
  offset := pl_transform2x2_identity
  components := 0
  width := .szVarW "HOOKED".toList :: List.replicate 31 .szEnd
  height := .szVarH "HOOKED".toList :: List.replicate 31 .szEnd
  cond := .szConst 1 :: List.replicate 31 .szEnd
  is_compute := false
  block_w := 0
  block_h := 0
  threads_w := 0
  threads_h := 0

/-- Helper of the scanf models: a leading digit run as a natural number,
with the rest. -/
def scan_nat (w : Str) : Option (ℕ × Str) :=
  let ds := w.takeWhile Char.isDigit
  if ds.isEmpty then none
  else some (ds.foldl (fun a c => 10 * a + (c.toNat - 48)) 0, w.dropWhile Char.isDigit)

/-- Modelled from the spec: one `%f` conversion of `bstr_sscanf`: skip
whitespace, optional sign, digit run with optional fraction; exponents and
IEEE rounding are not modelled. -/
def scan_float (s : Str) : Option (ℚ × Str) :=
  let s1 := s.dropWhile isSpaceC
  let signed : Bool × Str :=
    match s1 with
    | '-' :: r => (true, r)
    | '+' :: r => (false, r)
    | _ => (false, s1)
  let ds := signed.2.takeWhile Char.isDigit
  let rest := signed.2.dropWhile Char.isDigit
  if ds.isEmpty then none
  else
    let ip : ℕ := ds.foldl (fun a c => 10 * a + (c.toNat - 48)) 0
    let vr : ℚ × Str :=
      match rest with
      | '.' :: r2 =>
        let fs := r2.takeWhile Char.isDigit
        let fp : ℕ := fs.foldl (fun a c => 10 * a + (c.toNat - 48)) 0
        (mkRat (ip * 10 ^ fs.length + fp) (10 ^ fs.length), r2.dropWhile Char.isDigit)
      | _ => (mkRat ip 1, rest)
    some (if signed.1 then -vr.1 else vr.1, vr.2)

/-- Modelled from the spec: one `%d` conversion of `bstr_sscanf`. -/
def scan_int (s : Str) : Option (ℤ × Str) :=
  let s1 := s.dropWhile isSpaceC
  let signed : Bool × Str :=
    match s1 with
    | '-' :: r => (true, r)
    | '+' :: r => (false, r)
    | _ => (false, s1)
  match scan_nat signed.2 with
  | some vr => some (if signed.1 then -(vr.1 : ℤ) else (vr.1 : ℤ), vr.2)
  | none => none

/-- Modelled from the spec: `bstr_sscanf` with up to `n` `%d` conversions:
the successive successful conversions (the list length is C's return value). -/
def scan_ints : ℕ → Str → List ℤ
  | 0, _ => []
  | n + 1, s =>
    match scan_int s with
    | some vr => vr.1 :: scan_ints n vr.2
    | none => []

/-- Modelled from the spec: `bstr_sscanf` with up to `n` `%f` conversions. -/
def scan_floats : ℕ → Str → List ℚ
  | 0, _ => []
  | n + 1, s =>
    match scan_float s with
    | some vr => vr.1 :: scan_floats n vr.2
    | none => []

/-- Positional effect of COMPUTE's `%d %d %d %d` conversions (custom.c lines
322-325): `sscanf` writes the first `num` destinations. -/
def compute_write (out : custom_shader_hook) : List ℤ → custom_shader_hook
  | [a] => { out with block_w := a }
  | [a, b] => { out with block_w := a, block_h := b }
  | [a, b, c] => { out with block_w := a, block_h := b, threads_w := c }
  | [a, b, c, d] => { out with block_w := a, block_h := b, threads_w := c, threads_h := d }
  | _ => out

/-- One `//!` header line of C `parse_hook` (custom.c lines 249-338): `line`
is the stripped line with the magic literal already eaten; keywords are
matched by prefix in source order; `hook_idx`/`bind_idx` mirror the local
counters. -/
def hook_directive (line : Str) (out : custom_shader_hook) (hook_idx bind_idx : ℕ) :
    Option (custom_shader_hook × ℕ × ℕ) :=
  match bstr_eatstart0 line "HOOK".toList with
  | some l =>
    if hook_idx = SHADER_MAX_HOOKS then none
    else some ({ out with hook_tex := out.hook_tex ++ [bstr_strip l] }, hook_idx + 1, bind_idx)
  | none =>
  match bstr_eatstart0 line "BIND".toList with
  | some l =>
    if bind_idx = SHADER_MAX_BINDS then none
    else some ({ out with bind_tex := out.bind_tex ++ [bstr_strip l] }, hook_idx, bind_idx + 1)
  | none =>
  match bstr_eatstart0 line "SAVE".toList with
  | some l => some ({ out with save_tex := some (bstr_strip l) }, hook_idx, bind_idx)
  | none =>
  match bstr_eatstart0 line "DESC".toList with
  | some l => some ({ out with pass_desc := bstr_strip l }, hook_idx, bind_idx)
  | none =>
  match bstr_eatstart0 line "OFFSET".toList with
  | some l =>
    match scan_floats 2 l with
    | [ox, oy] =>
      some ({ out with offset := { out.offset with c0 := ox, c1 := oy } }, hook_idx, bind_idx)
    | _ => none
  | none =>
  match bstr_eatstart0 line "WIDTH".toList with
  | some l =>
    match parse_rpn_szexpr l out.width with
    | some prog => some ({ out with width := prog }, hook_idx, bind_idx)
    | none => none
  | none =>
  match bstr_eatstart0 line "HEIGHT".toList with
  | some l =>
    match parse_rpn_szexpr l out.height with
    | some prog => some ({ out with height := prog }, hook_idx, bind_idx)
    | none => none
  | none =>
  match bstr_eatstart0 line "WHEN".toList with
  | some l =>
    match parse_rpn_szexpr l out.cond with
    | some prog => some ({ out with cond := prog }, hook_idx, bind_idx)
    | none => none
  | none =>
  match bstr_eatstart0 line "COMPONENTS".toList with
  | some l =>
    match scan_int l with
    | some vr => some ({ out with components := vr.1 }, hook_idx, bind_idx)
    | none => none
  | none =>
  match bstr_eatstart0 line "COMPUTE".toList with
  | some l =>
    let vs := scan_ints 4 l
    let out2 := compute_write out vs
    if vs.length = 2 ∨ vs.length = 4 then some ({ out2 with is_compute := true }, hook_idx, bind_idx)
    else none
  | none => none

/-- The header loop plus body split of C `parse_hook` (custom.c lines
238-353). Fuel bounds the line recursion (each round consumes one line, so
`length + 1` rounds always reach the exit). Returns the parsed hook and the
leftover document, with the magic literal re-attached when a further section
follows (custom.c lines 343-347). -/
def parse_hook_go : ℕ → Str → custom_shader_hook → ℕ → ℕ → Option (custom_shader_hook × Str)
  | 0, _, _, _, _ => none
  | fuel + 1, body, out, hook_idx, bind_idx =>
    let gl := bstr_getline body
    let line := bstr_strip gl.1
    match bstr_eatstart0 line "//!".toList with
    | none =>
      let st := bstr_split_tok body "//!".toList
      some ({ out with pass_body := st.1 },
            if st.2.2 then "//!".toList ++ st.2.1 else st.2.1)
    | some rest_line =>
      match hook_directive rest_line out hook_idx bind_idx with
      | some s => parse_hook_go fuel gl.2 s.1 s.2.1 s.2.2
      | none => none

/-- C `parse_hook` on a section body. -/
def parse_hook (body : Str) : Option (custom_shader_hook × Str) :=
  parse_hook_go (body.length + 1) body hook_defaults 0 0

/-- The number of header lines of a section whose content (after the magic
literal) starts with keyword `kw`, following the same line recursion as
`parse_hook_go`. -/
def count_dirs (kw : Str) : ℕ → Str → ℕ
  | 0, _ => 0
  | fuel + 1, body =>
    let gl := bstr_getline body
    let line := bstr_strip gl.1
    match bstr_eatstart0 line "//!".toList with
    | none => 0
    | some rest_line =>
      (if (bstr_eatstart0 rest_line kw).isSome then 1 else 0) + count_dirs kw fuel gl.2

/-- The document text from the first non-header line of a section onwards,
following the same line recursion as `parse_hook_go`. -/
def header_rest : ℕ → Str → Str
  | 0, body => body
  | fuel + 1, body =>
    let gl := bstr_getline body
    let line := bstr_strip gl.1
    match bstr_eatstart0 line "//!".toList with
    | none => body
    | some _ => header_rest fuel gl.2

/-- Does `tok` occur as a contiguous run anywhere in `s`? -/
def contains_tok (s tok : Str) : Bool :=
  match eats tok s with
  | some _ => true
  | none =>
    match s with
    | [] => false
    | _ :: cs => contains_tok cs tok

/-- The lines of a document, newline terminators kept. -/
def lines_of : ℕ → Str → List Str
  | 0, _ => []
  | fuel + 1, body =>
    if body.isEmpty then []
    else
      let gl := bstr_getline body
      gl.1 :: lines_of fuel gl.2

/-! The texture-section parser (custom.c lines 356-528). -/

/-- C `struct pl_fmt`: the fields the texture parser consumes (`opq` models
the C field `opaque`; the caps bitmask is split into the two tested bits). -/
structure pl_fmt where
  name : Str
  opq : Bool
  cap_sampleable : Bool
  cap_linear : Bool
  texel_size : ℕ
deriving DecidableEq

/-- C `enum pl_tex_sample_mode`. -/
inductive pl_tex_sample_mode where
  | sampleNearest | sampleLinear
deriving DecidableEq

/-- C `enum pl_tex_address_mode`. -/
inductive pl_tex_address_mode where
  | addrClamp | addrRepeat | addrMirror
deriving DecidableEq

/-- C `struct pl_tex_params`: the fields the parser writes. -/
structure pl_tex_params where
  w : ℤ
  h : ℤ
  d : ℤ
  format : Option pl_fmt
  sample_mode : pl_tex_sample_mode
  address_mode : pl_tex_address_mode
deriving DecidableEq

/-- C `struct pl_gpu`: the format table and per-dimension size limits. -/
structure pl_gpu where
  formats : List pl_fmt
  max_tex_1d_dim : ℤ
  max_tex_2d_dim : ℤ
  max_tex_3d_dim : ℤ
deriving DecidableEq

/-- Modelled from the spec: a created GPU texture: its creation parameters
and initial payload (`pl_tex_create` always succeeds in the model). -/
structure pl_tex where
  params : pl_tex_params
  data : List ℕ
deriving DecidableEq

/-- C `struct custom_shader_tex`. -/
structure custom_shader_tex where
  name : Str
  tex : pl_tex
deriving DecidableEq

/-- Modelled from the spec: the value of one hex digit. -/
def hex_digit_val (c : Char) : Option ℕ :=
  if '0' ≤ c ∧ c ≤ '9' then some (c.toNat - 48)
  else if 'a' ≤ c ∧ c ≤ 'f' then some (c.toNat - 87)
  else if 'A' ≤ c ∧ c ≤ 'F' then some (c.toNat - 55)
  else none

/-- Modelled from the spec: hex decoding (`bstr_decode_hex`): an even-length
run of hex digits, two digits per output byte, no interior whitespace. -/
def bstr_decode_hex : Str → Option (List ℕ)
  | [] => some []
  | [_] => none
  | c1 :: c2 :: rest =>
    match hex_digit_val c1, hex_digit_val c2, bstr_decode_hex rest with
    | some a, some b, some tail => some ((16 * a + b) :: tail)
    | _, _, _ => none

/-- Positional effect of SIZE's `%d %d %d` conversions (custom.c line 383). -/
def size_write (p : pl_tex_params) : List ℤ → pl_tex_params
  | [a] => { p with w := a }
  | [a, b] => { p with w := a, h := b }
  | [a, b, c] => { p with w := a, h := b, d := c }
  | _ => p

/-- One `//!` header line of C `parse_tex` (custom.c lines 377-480):
`line` is the stripped line with the magic literal already eaten. -/
def tex_directive (gpu : pl_gpu) (line : Str) (name : Str) (params : pl_tex_params) :
    Option (Str × pl_tex_params) :=
  match bstr_eatstart0 line "TEXTURE".toList with
  | some l => some (bstr_strip l, params)
  | none =>
  match bstr_eatstart0 line "SIZE".toList with
  | some l =>
    let vs := scan_ints 3 l
    let dims := vs.length
    let p := size_write params vs
    let lim : ℤ :=
      if dims = 1 then gpu.max_tex_1d_dim
      else if dims = 2 then gpu.max_tex_2d_dim
      else if dims = 3 then gpu.max_tex_3d_dim
      else 0
    if dims = 0 then none
    else if dims = 3 ∧ (p.d < 1 ∨ lim < p.d) then none
    else if 2 ≤ dims ∧ (p.h < 1 ∨ lim < p.h) then none
    else if p.w < 1 ∨ lim < p.w then none
    else
      some (name, { p with
        d := if dims < 3 then 0 else p.d,
        h := if dims < 2 then 0 else p.h })
  | none =>
  match bstr_eatstart0 line "FORMAT ".toList with
  | some l0 =>
    let l := bstr_strip l0
    match gpu.formats.find? (fun f => f.name == l) with
    | none => none
    | some f =>
      if f.opq then none
      else if !f.cap_sampleable then none
      else some (name, { params with format := some f })
  | none =>
  match bstr_eatstart0 line "FILTER".toList with
  | some l0 =>
    let l := bstr_strip l0
    if l = "LINEAR".toList then some (name, { params with sample_mode := .sampleLinear })
    else if l = "NEAREST".toList then some (name, { params with sample_mode := .sampleNearest })
    else none
  | none =>
  match bstr_eatstart0 line "BORDER".toList with
  | some l0 =>
    let l := bstr_strip l0
    if l = "CLAMP".toList then some (name, { params with address_mode := .addrClamp })
    else if l = "REPEAT".toList then some (name, { params with address_mode := .addrRepeat })
    else if l = "MIRROR".toList then some (name, { params with address_mode := .addrMirror })
    else none
  | none => none

/-- The header loop of C `parse_tex`, with the same fuel convention as
`parse_hook_go`. -/
def parse_tex_go (gpu : pl_gpu) : ℕ → Str → Str → pl_tex_params →
    Option (Str × pl_tex_params × Str)
  | 0, _, _, _ => none
  | fuel + 1, body, name, params =>
    let gl := bstr_getline body
    let line := bstr_strip gl.1
    match bstr_eatstart0 line "//!".toList with
    | none => some (name, params, body)
    | some rest_line =>
      match tex_directive gpu rest_line name params with
      | some s => parse_tex_go gpu fuel gl.2 s.1 s.2
      | none => none

/-- The initial `pl_tex_params` of `parse_tex` (custom.c lines 363-366). -/
def tex_params_init : pl_tex_params where
  w := 1
  h := 1
  d := 0
  format := none
  sample_mode := .sampleNearest
  address_mode := .addrClamp

/-- C `parse_tex` (custom.c lines 356-528): headers, format checks, hex body
decode, length check against `product(dims) * texel_size` (undeclared
dimensions count as 1, C `PL_DEF`), then texture creation. -/
def parse_tex (gpu : pl_gpu) (body : Str) : Option (custom_shader_tex × Str) :=
  match parse_tex_go gpu (body.length + 1) body "USER_TEX".toList tex_params_init with
  | none => none
  | some (name, params, rest) =>
    match params.format with
    | none => none
    | some f =>
      if params.sample_mode = .sampleLinear ∧ !f.cap_linear then none
      else
        let st := bstr_split_tok rest "//!".toList
        let leftover := if st.2.2 then "//!".toList ++ st.2.1 else st.2.1
        match bstr_decode_hex (bstr_strip st.1) with
        | none => none
        | some data =>
          let texels : ℤ := params.w * (if params.h = 0 then 1 else params.h) *
                            (if params.d = 0 then 1 else params.d)
          let expected : ℤ := texels * (f.texel_size : ℤ)
          if (data.length : ℤ) ≠ expected then none
          else some ({ name := name, tex := { params := params, data := data } }, leftover)

/-! The hook execution dispatcher (custom.c lines 566-949). -/

/-- Modelled from the spec: the renderer's stage enumeration (external
header `enum pl_hook_stage`): sixteen distinct single-bit values. -/
def PL_HOOK_RGB_INPUT : ℕ := 1
/-- Modelled from the spec: stage bit. -/
def PL_HOOK_LUMA_INPUT : ℕ := 2
/-- Modelled from the spec: stage bit. -/
def PL_HOOK_CHROMA_INPUT : ℕ := 4
/-- Modelled from the spec: stage bit. -/
def PL_HOOK_ALPHA_INPUT : ℕ := 8
/-- Modelled from the spec: stage bit. -/
def PL_HOOK_XYZ_INPUT : ℕ := 16
/-- Modelled from the spec: stage bit. -/
def PL_HOOK_CHROMA_SCALED : ℕ := 32
/-- Modelled from the spec: stage bit. -/
def PL_HOOK_ALPHA_SCALED : ℕ := 64
/-- Modelled from the spec: stage bit. -/
def PL_HOOK_NATIVE : ℕ := 128
/-- Modelled from the spec: stage bit. -/
def PL_HOOK_RGB : ℕ := 256
/-- Modelled from the spec: stage bit. -/
def PL_HOOK_RGB_OVERLAY : ℕ := 512
/-- Modelled from the spec: stage bit. -/
def PL_HOOK_LINEAR : ℕ := 1024
/-- Modelled from the spec: stage bit. -/
def PL_HOOK_SIGMOID : ℕ := 2048
/-- Modelled from the spec: stage bit. -/
def PL_HOOK_PREKERNEL : ℕ := 4096
/-- Modelled from the spec: stage bit. -/
def PL_HOOK_POSTKERNEL : ℕ := 8192
/-- Modelled from the spec: stage bit. -/
def PL_HOOK_SCALED : ℕ := 16384
/-- Modelled from the spec: stage bit. -/
def PL_HOOK_OUTPUT : ℕ := 32768

/-- C `pl_stage_to_mp` (custom.c lines 608-634). -/
def pl_stage_to_mp (stage : ℕ) : Str :=
  if stage = PL_HOOK_RGB_INPUT then "RGB".toList
  else if stage = PL_HOOK_LUMA_INPUT then "LUMA".toList
  else if stage = PL_HOOK_CHROMA_INPUT then "CHROMA".toList
  else if stage = PL_HOOK_ALPHA_INPUT then "ALPHA".toList
  else if stage = PL_HOOK_XYZ_INPUT then "XYZ".toList
  else if stage = PL_HOOK_CHROMA_SCALED then "CHROMA_SCALED".toList
  else if stage = PL_HOOK_ALPHA_SCALED then "ALPHA_SCALED".toList
  else if stage = PL_HOOK_NATIVE then "NATIVE".toList
  else if stage = PL_HOOK_RGB then "MAINPRESUB".toList
  else if stage = PL_HOOK_RGB_OVERLAY then "MAIN".toList
  else if stage = PL_HOOK_LINEAR then "LINEAR".toList
  else if stage = PL_HOOK_SIGMOID then "SIGMOID".toList
  else if stage = PL_HOOK_PREKERNEL then "PREKERNEL".toList
  else if stage = PL_HOOK_POSTKERNEL then "POSTKERNEL".toList
  else if stage = PL_HOOK_SCALED then "SCALED".toList
  else if stage = PL_HOOK_OUTPUT then "OUTPUT".toList
  else "UNKNOWN".toList

/-- C `struct pl_rect2df`. -/
structure pl_rect2df where
  x0 : ℚ
  y0 : ℚ
  x1 : ℚ
  y1 : ℚ
deriving DecidableEq

/-- C `pl_rect_w`. -/
def pl_rect_w (r : pl_rect2df) : ℚ := r.x1 - r.x0

/-- C `pl_rect_h`. -/
def pl_rect_h (r : pl_rect2df) : ℚ := r.y1 - r.y0

/-- C `struct pl_hook_tex`: the texture handle plus its source rectangle. -/
structure pl_hook_tex where
  tex : pl_tex
  src_rect : pl_rect2df
deriving DecidableEq

/-- C `struct hook_pass`. -/
structure hook_pass where
  exec_stages : ℕ
  hook : custom_shader_hook
deriving DecidableEq

/-- C `struct pass_tex`. -/
structure pass_tex where
  name : Str
  tex : pl_hook_tex
deriving DecidableEq

/-- C `struct hook_priv`: the dispatcher state the claims touch. -/
structure hook_priv where
  hook_passes : List hook_pass
  lut_textures : List custom_shader_tex
  save_stages : ℕ
  pass_textures : List pass_tex
  frame_count : ℤ
  prng_state : ℕ × ℕ × ℕ × ℕ
deriving DecidableEq

/-- C `struct pl_hook_params`: the per-invocation inputs the dispatcher reads. -/
structure pl_hook_params where
  stage : ℕ
  count : ℕ
  tex : pl_hook_tex
  src_rect : pl_rect2df
  dst_rect : pl_rect2df
deriving DecidableEq

/-- C `lookup_tex` (custom.c lines 679-714): HOOKED, NATIVE_CROPPED and
OUTPUT resolve to well-known sizes, any other name to the first matching
pass-texture. -/
def lookup_tex (p : hook_priv) (params : pl_hook_params) : szLookup := fun var =>
  if var = "HOOKED".toList then
    some ((params.tex.tex.params.w : ℚ), (params.tex.tex.params.h : ℚ))
  else if var = "NATIVE_CROPPED".toList then
    some (pl_rect_w params.src_rect, pl_rect_h params.src_rect)
  else if var = "OUTPUT".toList then
    some (pl_rect_w params.dst_rect, pl_rect_h params.dst_rect)
  else
    match p.pass_textures.find? (fun pt => pt.name == var) with
    | some pt => some ((pt.tex.tex.params.w : ℚ), (pt.tex.tex.params.h : ℚ))
    | none => none

/-- C `prng_step` (custom.c lines 716-729): xoshiro256+ on 64-bit words
modelled as naturals reduced mod 2^64; the second component is the raw
output word shifted down 11 bits (it feeds only the emitted uniform). -/
def prng_step (s : ℕ × ℕ × ℕ × ℕ) : (ℕ × ℕ × ℕ × ℕ) × ℕ :=
  let m : ℕ := 2 ^ 64
  let res := (s.1 + s.2.2.2) % m
  let t := (s.2.1 <<< 17) % m
  let s2a := s.2.2.1 ^^^ s.1
  let s3a := s.2.2.2 ^^^ s.2.1
  let s1a := s.2.1 ^^^ s2a
  let s0a := s.1 ^^^ s3a
  let s2b := s2a ^^^ t
  let s3b := ((s3a <<< 45) % m) ||| (s3a >>> 19)
  ((s0a, s1a, s2b, s3b), res >>> 11)

/-- Modelled from the spec: the dispatcher status word bits (external
header): SAVE and AGAIN are distinct bits. -/
def PL_HOOK_STATUS_SAVE : ℕ := 1
/-- Modelled from the spec: the AGAIN status bit. -/
def PL_HOOK_STATUS_AGAIN : ℕ := 2

/-- What the bind loop does for one entry. -/
inductive bind_action where
  | bindHooked
  | bindLut (t : custom_shader_tex)
  | bindPass (t : pass_tex)
  | bindNone
deriving DecidableEq

/-- The pass-texture scan of the bind loop (custom.c lines 886-892): the
inner loop iterates `j` over the array but tests and binds index `i` — the
outer bind index — reproduced faithfully; an out-of-bounds `i` (undefined
behaviour in C) is modelled as no match. -/
def hook_bind_pass_choice (ptexs : List pass_tex) (texname : Str) (i : ℕ) : bind_action :=
  match ptexs.get? i with
  | some pt => if pt.name = texname then .bindPass pt else .bindNone
  | none => .bindNone

/-- The bind decision for entry `i` of the bind loop (custom.c lines
849-895): HOOKED first, then the LUT scan (custom.c lines 870-884, which
likewise subscripts with the outer `i`), then the pass-texture scan. -/
def hook_bind_choice (luts : List custom_shader_tex) (ptexs : List pass_tex)
    (texname : Str) (i : ℕ) : bind_action :=
  if texname = "HOOKED".toList then .bindHooked
  else
    match luts.get? i with
    | some t =>
      if t.name = texname then .bindLut t
      else hook_bind_pass_choice ptexs texname i
    | none => hook_bind_pass_choice ptexs texname i

/-- Success/failure of the shader-emitter collaborators (modelled from the
spec: compute dispatch request, output size request, texture bind). -/
structure sh_env where
  try_compute_ok : Bool
  sh_require_ok : Bool
  bind_ok : Bool
deriving DecidableEq

/-- The bind loop (custom.c lines 849-895): `bind_hook_tex` can fail for the
HOOKED and pass-texture branches; the LUT branch's `sh_desc` cannot fail;
an unmatched name binds nothing and continues. -/
def hook_bind_all (p : hook_priv) (env : sh_env) : List Str → ℕ → Bool
  | [], _ => true
  | name :: rest, i =>
    match hook_bind_choice p.lut_textures p.pass_textures name i with
    | .bindHooked => env.bind_ok && hook_bind_all p env rest (i + 1)
    | .bindPass _ => env.bind_ok && hook_bind_all p env rest (i + 1)
    | _ => hook_bind_all p env rest (i + 1)

/-- The save-on-entry step of `hook_hook` (custom.c lines 774-783). -/
def hook_entry_state (p : hook_priv) (params : pl_hook_params) : hook_priv :=
  if params.count = 0 ∧ p.save_stages &&& params.stage ≠ 0 then
    { p with pass_textures :=
        p.pass_textures ++ [{ name := pl_stage_to_mp params.stage, tex := params.tex }] }
  else p

/-- The matching passes at a stage, in registration order; the selection
loop of custom.c lines 791-800 picks the `count`-th of these and counts
them all. -/
def stage_matches (passes : List hook_pass) (stage : ℕ) : List hook_pass :=
  passes.filter (fun hp => hp.exec_stages &&& stage != 0)

/-- C `hook_hook` (custom.c lines 768-949): one dispatcher invocation. The
first component is `none` for the C error return `-1` and `some status`
otherwise; the second is the updated state. Shader text emission (GLSLH) is
an external effect and is not modelled. -/
def hook_hook (p0 : hook_priv) (params : pl_hook_params) (env : sh_env) :
    Option ℕ × hook_priv :=
  let p := hook_entry_state p0 params
  let total_count := (stage_matches p.hook_passes params.stage).length
  let again : ℕ := if params.count + 1 < total_count then PL_HOOK_STATUS_AGAIN else 0
  match (stage_matches p.hook_passes params.stage)[params.count]? with
  | none => (some 0, p)
  | some pass =>
    match pl_eval_szexpr (lookup_tex p params) pass.hook.cond with
    | none => (none, p)
    | some run =>
      if run = 0 then (some again, p)
      else if pass.hook.is_compute && !env.try_compute_ok then (none, p)
      else
        match pl_eval_szexpr (lookup_tex p params) pass.hook.width,
              pl_eval_szexpr (lookup_tex p params) pass.hook.height with
        | some _, some _ =>
          if !env.sh_require_ok then (none, p)
          else if !hook_bind_all p env pass.hook.bind_tex 0 then (none, p)
          else
            let p2 := { p with frame_count := p.frame_count + 1,
                               prng_state := (prng_step p.prng_state).1 }
            let save : ℕ := if pass.hook.save_tex.isSome then PL_HOOK_STATUS_SAVE else 0
            (some (save ||| again), p2)
        | _, _ => (none, p)

/-! Auxiliary definitions for the claim statements. -/

/-- A well-formed token as the data model describes (and as the parser
emits): monadic operators are NOT, dyadic operators are not NOT. The C
evaluator `abort()`s outside this set. -/
def szexp_wf : szexp → Bool
  | .szOp1 op => op = .opNot
  | .szOp2 op => op ≠ .opNot
  | _ => true

/-- A well-formed program: every token is well-formed. -/
def szprog_wf (prog : List szexp) : Prop := ∀ e ∈ prog, szexp_wf e = true

instance szprog_wf_dec (prog : List szexp) : Decidable (szprog_wf prog) :=
  inferInstanceAs (Decidable (∀ e ∈ prog, szexp_wf e = true))

/-- The success conditions claim C4 enumerates, read as a predicate over the
remaining program and current stack: no OP1 underflow (depth < 1), no OP2
underflow (depth < 2), every OP2 result finite (the dyadic application
succeeds), every VAR name resolved by the lookup, and depth exactly 1 when
END (or the end of the program) is reached. -/
def szexp_good (lookup : szLookup) : List szexp → List ℚ → Prop
  | [], stack => stack.length = 1
  | .szEnd :: _, stack => stack.length = 1
  | .szConst v :: rest, stack => szexp_good lookup rest (v :: stack)
  | .szOp1 _ :: rest, stack =>
    match stack with
    | [] => False
    | x :: s => szexp_good lookup rest ((if x = 0 then 1 else 0) :: s)
  | .szOp2 op :: rest, stack =>
    match stack with
    | b :: a :: s => ∃ r, szexp_apply_op2 op a b = some r ∧ szexp_good lookup rest (r :: s)
    | _ => False
  | .szVarW n :: rest, stack => ∃ sz, lookup n = some sz ∧ szexp_good lookup rest (sz.1 :: stack)
  | .szVarH n :: rest, stack => ∃ sz, lookup n = some sz ∧ szexp_good lookup rest (sz.2 :: stack)

/-- Witness program for the evaluator characterisation. -/
def c4_wprog : List szexp := [.szConst 2, .szConst 3, .szOp2 .opAdd, .szEnd]

/-- The lookup of scenario S3: HOOKED resolves to 1920 x 1080. -/
def lookup_hooked1920 : szLookup :=
  fun n => if n = "HOOKED".toList then some (1920, 1080) else none

/-- A section with two WIDTH directives, the second shorter than the first. -/
def c10_doc : Str := "//!HOOK RGB\n//!WIDTH 1 2 +\n//!WIDTH 5\nbody\n".toList

/-- A size-expression line of 33 tokens. -/
def c8_line33 : Str := (List.replicate 33 "1 ".toList).flatten

/-- A section with 17 HOOK directives. -/
def c8_hookdoc : Str := (List.replicate 17 "//!HOOK A\n".toList).flatten

/-- A section with one HOOK and 17 BIND directives. -/
def c8_binddoc : Str :=
  "//!HOOK A\n".toList ++ (List.replicate 17 "//!BIND A\n".toList).flatten

/-- A section whose body holds the magic token in the middle of a line. -/
def c3_doc : Str := "//!HOOK RGB\nA //!B\nC".toList

/-- What the code parses `c3_doc` into. -/
def c3_chook : custom_shader_hook :=
  { hook_defaults with hook_tex := ["RGB".toList], pass_body := "A ".toList }

/-- A two-section document for the amended body-split statement. -/
def c3_wdoc : Str := "//!HOOK RGB\nbodyA\n//!HOOK LUMA\nbodyB\n".toList

/-- What the code parses the first section of `c3_wdoc` into. -/
def c3_whook : custom_shader_hook :=
  { hook_defaults with hook_tex := ["RGB".toList], pass_body := "bodyA\n".toList }

/-- A plain one-hook section with no size directives. -/
def c7_wdoc : Str := "//!HOOK RGB\nbody\n".toList

/-- What the code parses `c7_wdoc` into. -/
def c7_whook : custom_shader_hook :=
  { hook_defaults with hook_tex := ["RGB".toList], pass_body := "body\n".toList }

/-- A model rgba8 format: 4 bytes per texel, sampleable, linear-capable. -/
def fmt_rgba8 : pl_fmt :=
  { name := "rgba8".toList, opq := false, cap_sampleable := true,
    cap_linear := true, texel_size := 4 }

/-- A model GPU with one format and generous size limits. -/
def gpu_demo : pl_gpu :=
  { formats := [fmt_rgba8], max_tex_1d_dim := 4096,
    max_tex_2d_dim := 4096, max_tex_3d_dim := 512 }

/-- Scenario S5: a 2x2 rgba8 texture section with a 16-byte hex body. -/
def c9_doc : Str :=
  ("//!TEXTURE mylut\n//!SIZE 2 2\n//!FORMAT rgba8\n//!FILTER NEAREST\n" ++
   "//!BORDER CLAMP\n00112233445566778899aabbccddeeff\n").toList

/-- The same section with a 15-byte body. -/
def c9_doc15 : Str :=
  ("//!TEXTURE mylut\n//!SIZE 2 2\n//!FORMAT rgba8\n//!FILTER NEAREST\n" ++
   "//!BORDER CLAMP\n00112233445566778899aabbccddee\n").toList

/-- The same section with a 17-byte body. -/
def c9_doc17 : Str :=
  ("//!TEXTURE mylut\n//!SIZE 2 2\n//!FORMAT rgba8\n//!FILTER NEAREST\n" ++
   "//!BORDER CLAMP\n00112233445566778899aabbccddeeff00\n").toList

/-- What the code parses `c9_doc` into. -/
def c9_tex : custom_shader_tex :=
  { name := "mylut".toList,
    tex := { params := { w := 2, h := 2, d := 0, format := some fmt_rgba8,
                         sample_mode := .sampleNearest, address_mode := .addrClamp },
             data := [0x00, 0x11, 0x22, 0x33, 0x44, 0x55, 0x66, 0x77,
                      0x88, 0x99, 0xaa, 0xbb, 0xcc, 0xdd, 0xee, 0xff] } }

/-- All collaborator operations succeed. -/
def sh_env_ok : sh_env := ⟨true, true, true⟩

/-- A degenerate rectangle for dispatcher fixtures. -/
def rect0 : pl_rect2df := ⟨0, 0, 0, 0⟩

/-- A 64x32 hooked texture for dispatcher fixtures. -/
def w_htex : pl_hook_tex :=
  { tex := { params := { tex_params_init with w := 64, h := 32 }, data := [] },
    src_rect := rect0 }

/-- Dispatcher inputs at stage bit 1, invocation 0. -/
def w_params0 : pl_hook_params :=
  { stage := 1, count := 0, tex := w_htex, src_rect := rect0, dst_rect := rect0 }

/-- A hook whose cond is the literal 0 and whose save_tex is set. -/
def c1_hook : custom_shader_hook :=
  { hook_defaults with
    save_tex := some "OUT".toList
    cond := .szConst 0 :: List.replicate 31 .szEnd }

/-- The C1 counterexample pass. -/
def c1_pass : hook_pass := { exec_stages := 1, hook := c1_hook }

/-- Dispatcher state holding only `c1_pass`. -/
def c1_priv : hook_priv :=
  { hook_passes := [c1_pass], lut_textures := [], save_stages := 0,
    pass_textures := [], frame_count := 0, prng_state := (1, 2, 3, 4) }

/-- A pass with save_tex set and the default cond (literal 1): the C1
witness pass. -/
def c1w_pass : hook_pass :=
  { exec_stages := 1, hook := { hook_defaults with save_tex := some "OUT".toList } }

/-- Dispatcher state holding only `c1w_pass`. -/
def c1w_priv : hook_priv :=
  { hook_passes := [c1w_pass], lut_textures := [], save_stages := 0,
    pass_textures := [], frame_count := 0, prng_state := (1, 2, 3, 4) }

/-- Dispatcher state holding one default pass at stage bit 1: the C6
witness state. -/
def c6w_priv : hook_priv :=
  { hook_passes := [{ exec_stages := 1, hook := hook_defaults }],
    lut_textures := [], save_stages := 0,
    pass_textures := [], frame_count := 0, prng_state := (1, 2, 3, 4) }

/-- A LUT texture named A. -/
def c2_lutA : custom_shader_tex :=
  { name := "A".toList, tex := { params := tex_params_init, data := [] } }

/-- A LUT texture named B. -/
def c2_lutB : custom_shader_tex :=
  { name := "B".toList, tex := { params := tex_params_init, data := [] } }

/-- A pass-texture named A. -/
def c2_ptA : pass_tex := { name := "A".toList, tex := w_htex }

/-- A pass-texture named B. -/
def c2_ptB : pass_tex := { name := "B".toList, tex := w_htex }

/-! Theorems. -/

theorem szexp_run_good (lookup : szLookup) :
    ∀ (prog : List szexp) (stack : List ℚ), szprog_wf prog →
      (szexp_good lookup prog stack ↔
        ∃ s, szexp_run lookup prog stack = some s ∧ s.length = 1) := by
  intro prog
  induction prog with
  | nil => intro stack _; simp [szexp_good, szexp_run]
  | cons e rest ih =>
    intro stack hwf
    have hwfe : szexp_wf e = true := hwf e (List.mem_cons_self _ _)
    have hwfr : szprog_wf rest := fun x hx => hwf x (List.mem_cons_of_mem _ hx)
    cases e with
    | szEnd => simp [szexp_good, szexp_run]
    | szConst v => simpa [szexp_good, szexp_run] using ih (v :: stack) hwfr
    | szOp1 op =>
      have hop : op = .opNot := by simpa [szexp_wf] using hwfe
      subst hop
      cases stack with
      | nil => simp [szexp_good, szexp_run]
      | cons x s =>
        simpa [szexp_good, szexp_run, szexp_apply_op1] using
          ih (((if x = 0 then 1 else 0) : ℚ) :: s) hwfr
    | szOp2 op =>
      cases stack with
      | nil => simp [szexp_good, szexp_run]
      | cons b s' =>
        cases s' with
        | nil => simp [szexp_good, szexp_run]
        | cons a s =>
          cases hab : szexp_apply_op2 op a b with
          | none => simp [szexp_good, szexp_run, hab]
          | some r =>
            simpa [szexp_good, szexp_run, hab] using ih (r :: s) hwfr
    | szVarW n =>
      cases hl : lookup n with
      | none => simp [szexp_good, szexp_run, hl]
      | some sz => simpa [szexp_good, szexp_run, hl] using ih (sz.1 :: stack) hwfr
    | szVarH n =>
      cases hl : lookup n with
      | none => simp [szexp_good, szexp_run, hl]
      | some sz => simpa [szexp_good, szexp_run, hl] using ih (sz.2 :: stack) hwfr

/-- C4: for every (well-formed) size-expression program, evaluation succeeds
and produces a result if and only if no OP1/OP2 token encounters stack
underflow, every OP2 result is finite, every VAR_W/VAR_H name is resolved by
the caller-supplied lookup, and the stack depth when END (or the end of the
program) is reached is exactly 1. -/
theorem c4_eval_success_iff (lookup : szLookup) (prog : List szexp)
    (hwf : szprog_wf prog) :
    (∃ r, pl_eval_szexpr lookup prog = some r) ↔ szexp_good lookup prog [] := by
  rw [szexp_run_good lookup prog [] hwf]
  constructor
  · rintro ⟨r, hr⟩
    unfold pl_eval_szexpr at hr
    cases hrun : szexp_run lookup prog [] with
    | none => rw [hrun] at hr; exact absurd hr (by simp)
    | some s =>
      rw [hrun] at hr
      match s, hr with
      | [v], _ => exact ⟨[v], rfl, rfl⟩
  · rintro ⟨s, hs, hlen⟩
    match s, hlen with
    | [v], _ => exact ⟨v, by simp [pl_eval_szexpr, hs]⟩

theorem c4_witness :
    szprog_wf c4_wprog ∧
      ((∃ r, pl_eval_szexpr lookup_none c4_wprog = some r) ↔
        szexp_good lookup_none c4_wprog []) :=
  ⟨by decide, c4_eval_success_iff lookup_none c4_wprog (by decide)⟩

/-- C5: the operator algebra of the evaluator — for all finite a, b the
four arithmetic operators compute a+b, a-b, a*b and (b nonzero) a/b; GT and
LT compute the 1/0 indicator; NOT computes the zero indicator; a non-finite
dyadic result (division by zero) fails; and the three literal scenarios
"2 3 +", "4 2 /" and "5 3 >" parse and evaluate to 5, 2 and 1. -/
theorem c5_operator_algebra :
    (∀ a b : ℚ, pl_eval_szexpr lookup_none
        [.szConst a, .szConst b, .szOp2 .opAdd, .szEnd] = some (a + b)) ∧
    (∀ a b : ℚ, pl_eval_szexpr lookup_none
        [.szConst a, .szConst b, .szOp2 .opSub, .szEnd] = some (a - b)) ∧
    (∀ a b : ℚ, pl_eval_szexpr lookup_none
        [.szConst a, .szConst b, .szOp2 .opMul, .szEnd] = some (a * b)) ∧
    (∀ a b : ℚ, b ≠ 0 → pl_eval_szexpr lookup_none
        [.szConst a, .szConst b, .szOp2 .opDiv, .szEnd] = some (a / b)) ∧
    (∀ a b : ℚ, pl_eval_szexpr lookup_none
        [.szConst a, .szConst b, .szOp2 .opGt, .szEnd] = some (if a > b then 1 else 0)) ∧
    (∀ a b : ℚ, pl_eval_szexpr lookup_none
        [.szConst a, .szConst b, .szOp2 .opLt, .szEnd] = some (if a < b then 1 else 0)) ∧
    (∀ a : ℚ, pl_eval_szexpr lookup_none
        [.szConst a, .szOp1 .opNot, .szEnd] = some (if a = 0 then 1 else 0)) ∧
    (∀ a : ℚ, pl_eval_szexpr lookup_none
        [.szConst a, .szConst 0, .szOp2 .opDiv, .szEnd] = none) ∧
    (∃ p, parse_rpn_szexpr "2 3 +".toList rpn_zero = some p ∧
        pl_eval_szexpr lookup_none p = some 5) ∧
    (∃ p, parse_rpn_szexpr "4 2 /".toList rpn_zero = some p ∧
        pl_eval_szexpr lookup_none p = some 2) ∧
    (∃ p, parse_rpn_szexpr "5 3 >".toList rpn_zero = some p ∧
        pl_eval_szexpr lookup_none p = some 1) := by
  refine ⟨?_, ?_, ?_, ?_, ?_, ?_, ?_, ?_, ?_, ?_, ?_⟩
  · intro a b; simp [pl_eval_szexpr, szexp_run, szexp_apply_op2]
  · intro a b; simp [pl_eval_szexpr, szexp_run, szexp_apply_op2]
  · intro a b; simp [pl_eval_szexpr, szexp_run, szexp_apply_op2]
  · intro a b hb; simp [pl_eval_szexpr, szexp_run, szexp_apply_op2, hb]
  · intro a b; simp [pl_eval_szexpr, szexp_run, szexp_apply_op2]
  · intro a b; simp [pl_eval_szexpr, szexp_run, szexp_apply_op2]
  · intro a; simp [pl_eval_szexpr, szexp_run, szexp_apply_op1]
  · intro a; simp [pl_eval_szexpr, szexp_run, szexp_apply_op2]
  · exact ⟨[.szConst 2, .szConst 3, .szOp2 .opAdd] ++ List.replicate 29 .szEnd,
      by decide, by norm_num [pl_eval_szexpr, szexp_run, szexp_apply_op2]⟩
  · exact ⟨[.szConst 4, .szConst 2, .szOp2 .opDiv] ++ List.replicate 29 .szEnd,
      by decide, by norm_num [pl_eval_szexpr, szexp_run, szexp_apply_op2]⟩
  · exact ⟨[.szConst 5, .szConst 3, .szOp2 .opGt] ++ List.replicate 29 .szEnd,
      by decide, by norm_num [pl_eval_szexpr, szexp_run, szexp_apply_op2]⟩

theorem parse_szexp_token_ne_end (w : Str) (e : szexp)
    (h : parse_szexp_token w = some e) : e ≠ .szEnd := by
  unfold parse_szexp_token at h
  repeat' split at h
  all_goals first
    | (cases h; simp)
    | simp_all

theorem parse_rpn_go_overflow (ws : List Str) :
    ∀ (pos : ℕ) (out : List szexp), ws ≠ [] → MAX_SZEXP_SIZE < ws.length + pos →
      parse_rpn_go ws pos out = none := by
  induction ws with
  | nil => intro pos out h _; exact absurd rfl h
  | cons w ws ih =>
    intro pos out _ hlen
    unfold parse_rpn_go
    by_cases hpos : MAX_SZEXP_SIZE ≤ pos
    · simp [hpos]
    · rw [if_neg hpos]
      cases htok : parse_szexp_token w with
      | none => rfl
      | some e =>
        apply ih
        · rintro rfl
          simp only [List.length_cons, List.length_nil, MAX_SZEXP_SIZE] at hlen hpos
          omega
        · simp only [List.length_cons] at hlen ⊢
          omega

theorem parse_rpn_go_stale (ws : List Str) :
    ∀ (pos : ℕ) (out out' : List szexp), parse_rpn_go ws pos out = some out' →
      ∀ j, j < pos ∨ pos + ws.length ≤ j → out'[j]? = out[j]? := by
  induction ws with
  | nil =>
    intro pos out out' h j _
    cases h
    rfl
  | cons w ws ih =>
    intro pos out out' h j hj
    have hj' : j < pos ∨ pos + (ws.length + 1) ≤ j := by
      simpa [List.length_cons] using hj
    unfold parse_rpn_go at h
    by_cases hpos : MAX_SZEXP_SIZE ≤ pos
    · simp [hpos] at h
    · rw [if_neg hpos] at h
      cases htok : parse_szexp_token w with
      | none => rw [htok] at h; cases h
      | some e =>
        rw [htok] at h
        have hrec := ih (pos + 1) (out.set pos e) out' h j (by omega)
        rw [hrec, List.getElem?_set_ne (by omega)]

theorem parse_rpn_go_written (ws : List Str) :
    ∀ (pos : ℕ) (out out' : List szexp), parse_rpn_go ws pos out = some out' →
      ∀ j, pos ≤ j → j < pos + ws.length → ∀ e, out'[j]? = some e → e ≠ .szEnd := by
  induction ws with
  | nil =>
    intro pos out out' _ j h1 h2 e hj
    rw [List.length_nil] at h2
    omega
  | cons w ws ih =>
    intro pos out out' h j h1 h2 e hj
    have h2' : j < pos + (ws.length + 1) := by
      simpa [List.length_cons] using h2
    unfold parse_rpn_go at h
    by_cases hpos : MAX_SZEXP_SIZE ≤ pos
    · simp [hpos] at h
    · rw [if_neg hpos] at h
      cases htok : parse_szexp_token w with
      | none => rw [htok] at h; cases h
      | some e0 =>
        rw [htok] at h
        by_cases hje : j = pos
        · have hst := parse_rpn_go_stale ws (pos + 1) (out.set pos e0) out' h j
            (Or.inl (by omega))
          rw [hst, hje] at hj
          rcases Nat.lt_or_ge pos out.length with hlt | hge
          · rw [List.getElem?_set_self hlt] at hj
            have he : e0 = e := by injection hj
            exact he ▸ parse_szexp_token_ne_end w e0 htok
          · rw [List.getElem?_eq_none (by simpa using hge)] at hj
            cases hj
        · exact ih (pos + 1) _ out' h j (by omega) (by omega) e hj

/-- C10: the size-expression parser never writes an END terminator and only
overwrites the first k slots of the 32-slot buffer for a k-token source
(and a successfully parsed source has at most 32 tokens); consequently a
hook section with two WIDTH directives, the second parsing to fewer tokens,
stores the second expression followed by the stale trailing tokens of the
first ("1 2 +" then "5" stores CONST 5, CONST 2, ADD). -/
theorem c10_stale_program_slots :
    (∀ (line : Str) (out out' : List szexp), parse_rpn_szexpr line out = some out' →
      (szTokens line).length ≤ MAX_SZEXP_SIZE ∧
      (∀ j, (szTokens line).length ≤ j → out'[j]? = out[j]?) ∧
      (∀ j, j < (szTokens line).length → ∀ e, out'[j]? = some e → e ≠ .szEnd)) ∧
    (parse_hook c10_doc).map (fun x => x.1.width) =
      some ([.szConst 5, .szConst 2, .szOp2 .opAdd] ++ List.replicate 29 .szEnd) := by
  constructor
  · intro line out out' h
    refine ⟨?_, ?_, ?_⟩
    · by_cases hnil : szTokens line = []
      · simp [hnil, MAX_SZEXP_SIZE]
      · by_contra hgt
        rw [parse_rpn_szexpr,
          parse_rpn_go_overflow (szTokens line) 0 out hnil (by omega)] at h
        cases h
    · intro j hj
      exact parse_rpn_go_stale _ 0 _ _ h j (Or.inr (by omega))
    · intro j hj e he
      exact parse_rpn_go_written _ 0 _ _ h j (by omega) (by omega) e he
  · decide

theorem eatstart_disjoint_heads (line : Str) (c1 c2 : Char) (p1 p2 : Str) (hne : c1 ≠ c2)
    (h : (bstr_eatstart0 line (c1 :: p1)).isSome = true) :
    bstr_eatstart0 line (c2 :: p2) = none := by
  cases line with
  | nil => simp [bstr_eatstart0, eats] at h
  | cons c cs =>
    simp only [bstr_eatstart0, eats] at h ⊢
    by_cases hc : c = c1
    · subst hc
      rw [if_neg hne]
    · rw [if_neg hc] at h
      simp at h

theorem hook_directive_hook_pos (line : Str) (out : custom_shader_hook) (hi bi : ℕ)
    (o' : custom_shader_hook) (hi' bi' : ℕ)
    (h : hook_directive line out hi bi = some (o', hi', bi'))
    (hkw : (bstr_eatstart0 line "HOOK".toList).isSome = true) :
    hi ≠ SHADER_MAX_HOOKS ∧ hi' = hi + 1 := by
  obtain ⟨l, hl⟩ := Option.isSome_iff_exists.mp hkw
  unfold hook_directive at h
  rw [hl] at h
  dsimp only at h
  split at h
  · cases h
  · rename_i hbound
    simp only [Option.some.injEq, Prod.mk.injEq] at h
    exact ⟨hbound, h.2.1.symm⟩

theorem hook_directive_hook_neg (line : Str) (out : custom_shader_hook) (hi bi : ℕ)
    (o' : custom_shader_hook) (hi' bi' : ℕ)
    (h : hook_directive line out hi bi = some (o', hi', bi'))
    (hkw : (bstr_eatstart0 line "HOOK".toList).isSome = false) :
    hi' = hi := by
  unfold hook_directive at h
  repeat' split at h
  all_goals simp_all

theorem hook_directive_bind_pos (line : Str) (out : custom_shader_hook) (hi bi : ℕ)
    (o' : custom_shader_hook) (hi' bi' : ℕ)
    (h : hook_directive line out hi bi = some (o', hi', bi'))
    (hkw : (bstr_eatstart0 line "BIND".toList).isSome = true) :
    bi ≠ SHADER_MAX_BINDS ∧ bi' = bi + 1 := by
  have hno : bstr_eatstart0 line "HOOK".toList = none :=
    eatstart_disjoint_heads line 'B' 'H' _ _ (by decide) hkw
  obtain ⟨l, hl⟩ := Option.isSome_iff_exists.mp hkw
  unfold hook_directive at h
  rw [hno, hl] at h
  dsimp only at h
  split at h
  · cases h
  · rename_i hbound
    simp only [Option.some.injEq, Prod.mk.injEq] at h
    exact ⟨hbound, h.2.2.symm⟩

theorem hook_directive_bind_neg (line : Str) (out : custom_shader_hook) (hi bi : ℕ)
    (o' : custom_shader_hook) (hi' bi' : ℕ)
    (h : hook_directive line out hi bi = some (o', hi', bi'))
    (hkw : (bstr_eatstart0 line "BIND".toList).isSome = false) :
    bi' = bi := by
  unfold hook_directive at h
  repeat' split at h
  all_goals simp_all

theorem parse_hook_go_hook_bound :
    ∀ (fuel : ℕ) (body : Str) (out : custom_shader_hook) (hi bi : ℕ)
      (res : custom_shader_hook × Str),
      parse_hook_go fuel body out hi bi = some res → hi ≤ SHADER_MAX_HOOKS →
      count_dirs "HOOK".toList fuel body + hi ≤ SHADER_MAX_HOOKS := by
  intro fuel
  induction fuel with
  | zero => intro body out hi bi res h; cases h
  | succ fuel ih =>
    intro body out hi bi res h hle
    rw [parse_hook_go] at h
    rw [count_dirs]
    dsimp only at h ⊢
    cases hm : bstr_eatstart0 (bstr_strip (bstr_getline body).1) "//!".toList with
    | none => simpa [hm] using hle
    | some rest_line =>
      rw [hm] at h
      dsimp only at h
      cases hd : hook_directive rest_line out hi bi with
      | none => rw [hd] at h; cases h
      | some s =>
        obtain ⟨o', hi', bi'⟩ := s
        rw [hd] at h
        dsimp only at h
        dsimp only
        cases hkw : (bstr_eatstart0 rest_line "HOOK".toList).isSome with
        | true =>
          obtain ⟨hbound, hstep⟩ := hook_directive_hook_pos _ _ _ _ _ _ _ hd hkw
          have hrec := ih _ _ _ _ _ h (by simp only [SHADER_MAX_HOOKS] at hbound hle ⊢; omega)
          simp only [hkw, if_true, SHADER_MAX_HOOKS] at hrec ⊢
          omega
        | false =>
          have hstep := hook_directive_hook_neg _ _ _ _ _ _ _ hd hkw
          have hrec := ih _ _ _ _ _ h (by omega)
          simp [hkw, SHADER_MAX_HOOKS] at hrec ⊢
          omega

theorem parse_hook_go_bind_bound :
    ∀ (fuel : ℕ) (body : Str) (out : custom_shader_hook) (hi bi : ℕ)
      (res : custom_shader_hook × Str),
      parse_hook_go fuel body out hi bi = some res → bi ≤ SHADER_MAX_BINDS →
      count_dirs "BIND".toList fuel body + bi ≤ SHADER_MAX_BINDS := by
  intro fuel
  induction fuel with
  | zero => intro body out hi bi res h; cases h
  | succ fuel ih =>
    intro body out hi bi res h hle
    rw [parse_hook_go] at h
    rw [count_dirs]
    dsimp only at h ⊢
    cases hm : bstr_eatstart0 (bstr_strip (bstr_getline body).1) "//!".toList with
    | none => simpa [hm] using hle
    | some rest_line =>
      rw [hm] at h
      dsimp only at h
      cases hd : hook_directive rest_line out hi bi with
      | none => rw [hd] at h; cases h
      | some s =>
        obtain ⟨o', hi', bi'⟩ := s
        rw [hd] at h
        dsimp only at h
        dsimp only
        cases hkw : (bstr_eatstart0 rest_line "BIND".toList).isSome with
        | true =>
          obtain ⟨hbound, hstep⟩ := hook_directive_bind_pos _ _ _ _ _ _ _ hd hkw
          have hrec := ih _ _ _ _ _ h (by simp only [SHADER_MAX_BINDS] at hbound hle ⊢; omega)
          simp only [hkw, if_true, SHADER_MAX_BINDS] at hrec ⊢
          omega
        | false =>
          have hstep := hook_directive_bind_neg _ _ _ _ _ _ _ hd hkw
          have hrec := ih _ _ _ _ _ h (by omega)
          simp [hkw, SHADER_MAX_BINDS] at hrec ⊢
          omega

set_option maxRecDepth 40000 in
/-- C8: parsing fails on overflow of every fixed capacity: an RPN source of
more than 32 non-empty tokens fails, a hook section with more than 16 HOOK
header lines fails, and one with more than 16 BIND header lines fails; the
three concrete overflow documents demonstrate each bound is reachable. -/
theorem c8_capacity_overflow :
    (∀ (line : Str) (out : List szexp), MAX_SZEXP_SIZE < (szTokens line).length →
      parse_rpn_szexpr line out = none) ∧
    (∀ body : Str, SHADER_MAX_HOOKS < count_dirs "HOOK".toList (body.length + 1) body →
      parse_hook body = none) ∧
    (∀ body : Str, SHADER_MAX_BINDS < count_dirs "BIND".toList (body.length + 1) body →
      parse_hook body = none) ∧
    (MAX_SZEXP_SIZE < (szTokens c8_line33).length ∧
      parse_rpn_szexpr c8_line33 rpn_zero = none) ∧
    (SHADER_MAX_HOOKS < count_dirs "HOOK".toList (c8_hookdoc.length + 1) c8_hookdoc ∧
      parse_hook c8_hookdoc = none) ∧
    (SHADER_MAX_BINDS < count_dirs "BIND".toList (c8_binddoc.length + 1) c8_binddoc ∧
      parse_hook c8_binddoc = none) := by
  refine ⟨?_, ?_, ?_, by decide, by decide, by decide⟩
  · intro line out hlen
    have hnil : szTokens line ≠ [] := by
      intro hx; rw [hx] at hlen; simp [MAX_SZEXP_SIZE] at hlen
    rw [parse_rpn_szexpr, parse_rpn_go_overflow (szTokens line) 0 out hnil (by omega)]
  · intro body hcount
    cases hps : parse_hook body with
    | none => rfl
    | some res =>
      have := parse_hook_go_hook_bound _ _ _ _ _ _ hps (by omega)
      omega
  · intro body hcount
    cases hps : parse_hook body with
    | none => rfl
    | some res =>
      have := parse_hook_go_bind_bound _ _ _ _ _ _ hps (by omega)
      omega

theorem compute_write_width (out : custom_shader_hook) (vs : List ℤ) :
    (compute_write out vs).width = out.width := by
  unfold compute_write
  repeat' split
  all_goals rfl

theorem compute_write_height (out : custom_shader_hook) (vs : List ℤ) :
    (compute_write out vs).height = out.height := by
  unfold compute_write
  repeat' split
  all_goals rfl

theorem compute_write_cond (out : custom_shader_hook) (vs : List ℤ) :
    (compute_write out vs).cond = out.cond := by
  unfold compute_write
  repeat' split
  all_goals rfl

theorem hook_directive_size_fields (line : Str) (out : custom_shader_hook) (hi bi : ℕ)
    (o' : custom_shader_hook) (hi' bi' : ℕ)
    (h : hook_directive line out hi bi = some (o', hi', bi'))
    (hw : (bstr_eatstart0 line "WIDTH".toList).isSome = false)
    (hh : (bstr_eatstart0 line "HEIGHT".toList).isSome = false)
    (hc : (bstr_eatstart0 line "WHEN".toList).isSome = false) :
    o'.width = out.width ∧ o'.height = out.height ∧ o'.cond = out.cond := by
  unfold hook_directive at h
  dsimp only at h
  repeat' split at h
  all_goals
    first
      | (exfalso; simp_all; done)
      | (simp only [Option.some.injEq, Prod.mk.injEq] at h
         obtain ⟨h1, -, -⟩ := h
         subst h1
         simp [compute_write_width, compute_write_height, compute_write_cond])

theorem parse_hook_go_size_defaults :
    ∀ (fuel : ℕ) (body : Str) (out : custom_shader_hook) (hi bi : ℕ)
      (hk : custom_shader_hook) (rest : Str),
      parse_hook_go fuel body out hi bi = some (hk, rest) →
      count_dirs "WIDTH".toList fuel body = 0 →
      count_dirs "HEIGHT".toList fuel body = 0 →
      count_dirs "WHEN".toList fuel body = 0 →
      hk.width = out.width ∧ hk.height = out.height ∧ hk.cond = out.cond := by
  intro fuel
  induction fuel with
  | zero => intro body out hi bi hk rest h; cases h
  | succ fuel ih =>
    intro body out hi bi hk rest h hw hh hc
    rw [parse_hook_go] at h
    rw [count_dirs] at hw hh hc
    dsimp only at h hw hh hc
    cases hm : bstr_eatstart0 (bstr_strip (bstr_getline body).1) "//!".toList with
    | none =>
      rw [hm] at h
      dsimp only at h
      simp only [Option.some.injEq, Prod.mk.injEq] at h
      obtain ⟨h1, -⟩ := h
      subst h1
      exact ⟨rfl, rfl, rfl⟩
    | some rest_line =>
      rw [hm] at h hw hh hc
      dsimp only at h hw hh hc
      cases hd : hook_directive rest_line out hi bi with
      | none => rw [hd] at h; cases h
      | some s =>
        obtain ⟨o', hi', bi'⟩ := s
        rw [hd] at h
        dsimp only at h
        have hw1 : (bstr_eatstart0 rest_line "WIDTH".toList).isSome = false := by
          cases hb : (bstr_eatstart0 rest_line "WIDTH".toList).isSome
          · rfl
          · rw [hb] at hw; simp at hw
        have hh1 : (bstr_eatstart0 rest_line "HEIGHT".toList).isSome = false := by
          cases hb : (bstr_eatstart0 rest_line "HEIGHT".toList).isSome
          · rfl
          · rw [hb] at hh; simp at hh
        have hc1 : (bstr_eatstart0 rest_line "WHEN".toList).isSome = false := by
          cases hb : (bstr_eatstart0 rest_line "WHEN".toList).isSome
          · rfl
          · rw [hb] at hc; simp at hc
        have hw2 : count_dirs "WIDTH".toList fuel (bstr_getline body).2 = 0 := by
          rw [hw1] at hw; simpa using hw
        have hh2 : count_dirs "HEIGHT".toList fuel (bstr_getline body).2 = 0 := by
          rw [hh1] at hh; simpa using hh
        have hc2 : count_dirs "WHEN".toList fuel (bstr_getline body).2 = 0 := by
          rw [hc1] at hc; simpa using hc
        have hpres := hook_directive_size_fields _ _ _ _ _ _ _ hd hw1 hh1 hc1
        have hrec := ih _ o' hi' bi' hk rest h hw2 hh2 hc2
        exact ⟨hrec.1.trans hpres.1, hrec.2.1.trans hpres.2.1, hrec.2.2.trans hpres.2.2⟩

/-- C7: a hook section with no WIDTH, HEIGHT or WHEN directive keeps the
default size programs width = [VAR_W "HOOKED", END], height =
[VAR_H "HOOKED", END] and cond = [CONST 1, END] (in the zero-filled 32-slot
buffers); evaluating the defaults with HOOKED resolving to 1920 x 1080
yields 1920 and 1080. -/
theorem c7_default_size_programs (body : Str) (hk : custom_shader_hook) (rest : Str)
    (hp : parse_hook body = some (hk, rest))
    (hw : count_dirs "WIDTH".toList (body.length + 1) body = 0)
    (hh : count_dirs "HEIGHT".toList (body.length + 1) body = 0)
    (hc : count_dirs "WHEN".toList (body.length + 1) body = 0) :
    hk.width = .szVarW "HOOKED".toList :: List.replicate 31 .szEnd ∧
    hk.height = .szVarH "HOOKED".toList :: List.replicate 31 .szEnd ∧
    hk.cond = .szConst 1 :: List.replicate 31 .szEnd ∧
    pl_eval_szexpr lookup_hooked1920 hk.width = some 1920 ∧
    pl_eval_szexpr lookup_hooked1920 hk.height = some 1080 := by
  have hdef := parse_hook_go_size_defaults _ _ _ _ _ _ _ hp hw hh hc
  refine ⟨hdef.1.trans rfl, hdef.2.1.trans rfl, hdef.2.2.trans rfl, ?_, ?_⟩
  · rw [hdef.1]
    decide
  · rw [hdef.2.1]
    decide

theorem c7_witness :
    c7_whook.width = .szVarW "HOOKED".toList :: List.replicate 31 .szEnd ∧
    c7_whook.height = .szVarH "HOOKED".toList :: List.replicate 31 .szEnd ∧
    c7_whook.cond = .szConst 1 :: List.replicate 31 .szEnd ∧
    pl_eval_szexpr lookup_hooked1920 c7_whook.width = some 1920 ∧
    pl_eval_szexpr lookup_hooked1920 c7_whook.height = some 1080 :=
  c7_default_size_programs c7_wdoc c7_whook [] (by decide) (by decide) (by decide)
    (by decide)

theorem eats_eq_append (p : Str) : ∀ (s r : Str), eats p s = some r → s = p ++ r := by
  induction p with
  | nil => intro s r h; cases h; rfl
  | cons a ps ih =>
    intro s r h
    cases s with
    | nil => cases h
    | cons c cs =>
      unfold eats at h
      split at h
      · rename_i hc
        subst hc
        exact congrArg (List.cons c) (ih cs r h)
      · cases h

theorem eats_append (p : Str) : ∀ (s r t : Str), eats p s = some r →
    eats p (s ++ t) = some (r ++ t) := by
  induction p with
  | nil => intro s r t h; cases h; rfl
  | cons a ps ih =>
    intro s r t h
    cases s with
    | nil => cases h
    | cons c cs =>
      unfold eats at h
      simp only [List.cons_append]
      unfold eats
      split at h
      · rename_i hc
        rw [if_pos hc]
        exact ih cs r t h
      · cases h

theorem eats_self_append (p : Str) : ∀ t : Str, eats p (p ++ t) = some t := by
  induction p with
  | nil => intro t; rfl
  | cons a ps ih =>
    intro t
    simp only [List.cons_append]
    unfold eats
    rw [if_pos rfl]
    exact ih t

theorem eats_nil_none (tok : Str) (h : tok ≠ []) : eats tok [] = none := by
  cases tok with
  | nil => exact absurd rfl h
  | cons a ps => rfl

theorem bstr_split_tok_append (tok : Str) : ∀ s : Str,
    (bstr_split_tok s tok).1 ++
      (if (bstr_split_tok s tok).2.2 then tok ++ (bstr_split_tok s tok).2.1
       else (bstr_split_tok s tok).2.1) = s := by
  intro s
  induction s with
  | nil =>
    rw [bstr_split_tok]
    cases he : eats tok [] with
    | some r =>
      have h0 := (eats_eq_append tok [] r he).symm
      obtain ⟨h1, h2⟩ := List.append_eq_nil.mp h0
      simp [h1, h2]
    | none => simp
  | cons c cs ih =>
    rw [bstr_split_tok]
    cases he : eats tok (c :: cs) with
    | some r =>
      simp only [if_true]
      exact (eats_eq_append _ _ _ he).symm
    | none =>
      simp only [List.cons_append]
      exact congrArg (List.cons c) ih

theorem bstr_split_tok_not_found (tok : Str) : ∀ s : Str,
    (bstr_split_tok s tok).2.2 = false → (bstr_split_tok s tok).2.1 = [] := by
  intro s
  induction s with
  | nil =>
    rw [bstr_split_tok]
    cases he : eats tok [] with
    | some r => simp
    | none => simp
  | cons c cs ih =>
    rw [bstr_split_tok]
    cases he : eats tok (c :: cs) with
    | some r => simp
    | none => exact ih

theorem bstr_split_tok_no_tok (tok : Str) (htok : tok ≠ []) : ∀ s : Str,
    contains_tok (bstr_split_tok s tok).1 tok = false := by
  intro s
  induction s with
  | nil =>
    rw [bstr_split_tok]
    cases he : eats tok [] with
    | some r =>
      obtain ⟨h1, h2⟩ := List.append_eq_nil.mp (eats_eq_append tok [] r he).symm
      exact absurd h1 htok
    | none =>
      rw [contains_tok, eats_nil_none tok htok]
  | cons c cs ih =>
    rw [bstr_split_tok]
    cases he : eats tok (c :: cs) with
    | some r =>
      rw [contains_tok, eats_nil_none tok htok]
    | none =>
      rw [contains_tok]
      cases he2 : eats tok (c :: (bstr_split_tok cs tok).1) with
      | some r2 =>
        exfalso
        have hext := eats_append tok _ _
          (if (bstr_split_tok cs tok).2.2 then tok ++ (bstr_split_tok cs tok).2.1
           else (bstr_split_tok cs tok).2.1) he2
        rw [List.cons_append, bstr_split_tok_append tok cs, he] at hext
        cases hext
      | none => exact ih

theorem parse_hook_go_rest :
    ∀ (fuel : ℕ) (body : Str) (out : custom_shader_hook) (hi bi : ℕ)
      (hk : custom_shader_hook) (rest : Str),
      parse_hook_go fuel body out hi bi = some (hk, rest) →
      hk.pass_body = (bstr_split_tok (header_rest fuel body) "//!".toList).1 ∧
      rest = (if (bstr_split_tok (header_rest fuel body) "//!".toList).2.2
              then "//!".toList ++ (bstr_split_tok (header_rest fuel body) "//!".toList).2.1
              else (bstr_split_tok (header_rest fuel body) "//!".toList).2.1) := by
  intro fuel
  induction fuel with
  | zero => intro body out hi bi hk rest h; cases h
  | succ fuel ih =>
    intro body out hi bi hk rest h
    rw [parse_hook_go] at h
    rw [header_rest]
    dsimp only at h ⊢
    cases hm : bstr_eatstart0 (bstr_strip (bstr_getline body).1) "//!".toList with
    | none =>
      rw [hm] at h
      dsimp only at h
      simp only [Option.some.injEq, Prod.mk.injEq] at h
      obtain ⟨h1, h2⟩ := h
      subst h1
      exact ⟨rfl, h2.symm⟩
    | some rest_line =>
      rw [hm] at h
      dsimp only at h
      cases hd : hook_directive rest_line out hi bi with
      | none => rw [hd] at h; cases h
      | some s =>
        obtain ⟨o', hi', bi'⟩ := s
        rw [hd] at h
        dsimp only at h
        exact ih _ _ _ _ _ _ h

/-- C3 (amended): the parsed pass_body is the document text from the first
non-header line up to (but not past) the next occurrence of the magic token
anywhere in the text (not only at a line start); the leftover handed back to
the document driver is the remainder with the magic token re-attached (empty
when no further occurrence exists). -/
theorem c3_pass_body_token_split (body : Str) (hk : custom_shader_hook) (rest : Str)
    (hp : parse_hook body = some (hk, rest)) :
    hk.pass_body ++ rest = header_rest (body.length + 1) body ∧
    contains_tok hk.pass_body "//!".toList = false ∧
    (rest = [] ∨ (bstr_eatstart0 rest "//!".toList).isSome = true) := by
  obtain ⟨h1, h2⟩ := parse_hook_go_rest _ _ _ _ _ _ _ hp
  refine ⟨?_, ?_, ?_⟩
  · rw [h1, h2]
    exact bstr_split_tok_append _ _
  · rw [h1]
    exact bstr_split_tok_no_tok _ (by decide) _
  · rw [h2]
    cases hf : (bstr_split_tok (header_rest (body.length + 1) body) "//!".toList).2.2 with
    | true =>
      right
      rw [if_pos rfl]
      rw [bstr_eatstart0, eats_self_append]
      rfl
    | false =>
      left
      rw [if_neg (by simp)]
      exact bstr_split_tok_not_found _ _ hf

theorem c3_witness :
    c3_whook.pass_body ++ "//!HOOK LUMA\nbodyB\n".toList =
      header_rest (c3_wdoc.length + 1) c3_wdoc ∧
    contains_tok c3_whook.pass_body "//!".toList = false ∧
    ("//!HOOK LUMA\nbodyB\n".toList = [] ∨
      (bstr_eatstart0 "//!HOOK LUMA\nbodyB\n".toList "//!".toList).isSome = true) :=
  c3_pass_body_token_split c3_wdoc c3_whook "//!HOOK LUMA\nbodyB\n".toList (by decide)

/-- C3 counterexample: in this section the magic token occurs in the middle
of a body line, and no line of the post-header text begins (even after
stripping) with the magic token; the claim would give the whole remainder
"A //!B\nC" as pass_body, but the code cuts at the mid-line token and
stores "A ". -/
theorem c3_counterexample :
    parse_hook c3_doc = some (c3_chook, "//!B\nC".toList) ∧
    header_rest (c3_doc.length + 1) c3_doc = "A //!B\nC".toList ∧
    (∀ l ∈ lines_of (c3_doc.length + 1) "A //!B\nC".toList,
      bstr_eatstart0 (bstr_strip l) "//!".toList = none) ∧
    c3_chook.pass_body = "A ".toList ∧
    c3_chook.pass_body ≠ "A //!B\nC".toList := by
  decide

/-- C9: a TEXTURE section parses successfully only when the decoded hex
payload's byte length equals the product of the declared dimensions
(undeclared dimensions counting as 1) times the resolved format's
texel_size. -/
theorem c9_texture_payload_length (gpu : pl_gpu) (body : Str)
    (t : custom_shader_tex) (rest : Str)
    (hp : parse_tex gpu body = some (t, rest)) :
    ∃ f, t.tex.params.format = some f ∧
      (t.tex.data.length : ℤ) =
        t.tex.params.w * (if t.tex.params.h = 0 then 1 else t.tex.params.h) *
          (if t.tex.params.d = 0 then 1 else t.tex.params.d) * (f.texel_size : ℤ) := by
  unfold parse_tex at hp
  cases hgo : parse_tex_go gpu (body.length + 1) body "USER_TEX".toList tex_params_init with
  | none => rw [hgo] at hp; cases hp
  | some s =>
    obtain ⟨name, params, rest0⟩ := s
    rw [hgo] at hp
    dsimp only at hp
    cases hf : params.format with
    | none => rw [hf] at hp; cases hp
    | some f =>
      rw [hf] at hp
      dsimp only at hp
      split at hp
      · cases hp
      · cases hdec : bstr_decode_hex (bstr_strip (bstr_split_tok rest0 "//!".toList).1) with
        | none => rw [hdec] at hp; cases hp
        | some data =>
          rw [hdec] at hp
          dsimp only at hp
          by_cases hlen : ((data.length : ℤ) ≠
              params.w * (if params.h = 0 then 1 else params.h) *
                (if params.d = 0 then 1 else params.d) * (f.texel_size : ℤ))
          · rw [if_pos hlen] at hp
            cases hp
          · rw [if_neg hlen] at hp
            push_neg at hlen
            simp only [Option.some.injEq, Prod.mk.injEq] at hp
            obtain ⟨hp1, -⟩ := hp
            subst hp1
            exact ⟨f, hf, hlen⟩

theorem c9_witness :
    parse_tex gpu_demo c9_doc = some (c9_tex, []) ∧
    parse_tex gpu_demo c9_doc15 = none ∧
    parse_tex gpu_demo c9_doc17 = none ∧
    (∃ f, c9_tex.tex.params.format = some f ∧
      (c9_tex.tex.data.length : ℤ) =
        c9_tex.tex.params.w *
          (if c9_tex.tex.params.h = 0 then 1 else c9_tex.tex.params.h) *
          (if c9_tex.tex.params.d = 0 then 1 else c9_tex.tex.params.d) *
          (f.texel_size : ℤ)) :=
  ⟨by decide, by decide, by decide,
   c9_texture_payload_length gpu_demo c9_doc c9_tex [] (by decide)⟩

theorem hook_entry_state_passes (p : hook_priv) (params : pl_hook_params) :
    (hook_entry_state p params).hook_passes = p.hook_passes := by
  unfold hook_entry_state
  split <;> rfl

theorem hook_bind_all_ok (p : hook_priv) (env : sh_env) (hb : env.bind_ok = true) :
    ∀ (l : List Str) (i : ℕ), hook_bind_all p env l i = true := by
  intro l
  induction l with
  | nil => intro i; rfl
  | cons name rest ih =>
    intro i
    rw [hook_bind_all]
    cases hc : hook_bind_choice p.lut_textures p.pass_textures name i with
    | bindHooked => simp [hb, ih]
    | bindLut t => simp [ih]
    | bindPass t => simp [hb, ih]
    | bindNone => simp [ih]

/-- C1 (amended): for every dispatcher invocation that selects a current
pass whose save_tex is non-empty, the returned status word (when one is
returned at all) has the SAVE bit set exactly when the pass's cond program
evaluated to a nonzero value: the cond-zero path jumps past the SAVE-bit
assignment and returns a status without SAVE. -/
theorem c1_save_bit_iff_cond (p : hook_priv) (params : pl_hook_params) (env : sh_env)
    (pass : hook_pass) (run : ℚ)
    (hsel : (stage_matches p.hook_passes params.stage)[params.count]? = some pass)
    (hsave : pass.hook.save_tex.isSome = true)
    (hrun : pl_eval_szexpr (lookup_tex (hook_entry_state p params) params)
        pass.hook.cond = some run) :
    (run = 0 → ∃ v, (hook_hook p params env).1 = some v ∧
        v &&& PL_HOOK_STATUS_SAVE = 0) ∧
    (run ≠ 0 → ∀ v, (hook_hook p params env).1 = some v →
        v &&& PL_HOOK_STATUS_SAVE ≠ 0) := by
  unfold hook_hook
  dsimp only
  rw [hook_entry_state_passes, hsel]
  dsimp only
  rw [hrun]
  dsimp only
  constructor
  · intro h0
    rw [if_pos h0]
    by_cases hagain : params.count + 1 <
        (stage_matches p.hook_passes params.stage).length
    · exact ⟨PL_HOOK_STATUS_AGAIN, by rw [if_pos hagain], by decide⟩
    · exact ⟨0, by rw [if_neg hagain], by decide⟩
  · intro hne v hv
    rw [if_neg hne] at hv
    split at hv
    · cases hv
    · cases hw : pl_eval_szexpr (lookup_tex (hook_entry_state p params) params)
          pass.hook.width with
      | none =>
        rw [hw] at hv
        cases hh : pl_eval_szexpr (lookup_tex (hook_entry_state p params) params)
            pass.hook.height with
        | none => rw [hh] at hv; cases hv
        | some h0 => rw [hh] at hv; cases hv
      | some w0 =>
        rw [hw] at hv
        cases hh : pl_eval_szexpr (lookup_tex (hook_entry_state p params) params)
            pass.hook.height with
        | none => rw [hh] at hv; cases hv
        | some h0 =>
          rw [hh] at hv
          dsimp only at hv
          split at hv
          · cases hv
          · split at hv
            · cases hv
            · dsimp only at hv
              simp only [Option.some.injEq] at hv
              subst hv
              by_cases hagain : params.count + 1 <
                  (stage_matches p.hook_passes params.stage).length
              · rw [if_pos hagain]
                decide
              · rw [if_neg hagain]
                decide

theorem c1_witness :
    ((1 : ℚ) = 0 → ∃ v, (hook_hook c1w_priv w_params0 sh_env_ok).1 = some v ∧
        v &&& PL_HOOK_STATUS_SAVE = 0) ∧
    ((1 : ℚ) ≠ 0 → ∀ v, (hook_hook c1w_priv w_params0 sh_env_ok).1 = some v →
        v &&& PL_HOOK_STATUS_SAVE ≠ 0) :=
  c1_save_bit_iff_cond c1w_priv w_params0 sh_env_ok c1w_pass 1
    (by decide) (by decide) (by decide)

/-- C1 counterexample: a selected pass with non-empty save_tex whose cond
evaluates to zero returns status 0, with the SAVE bit clear — the claim
says the SAVE bit is set on that invocation too. -/
theorem c1_counterexample :
    (stage_matches c1_priv.hook_passes w_params0.stage)[w_params0.count]? =
      some c1_pass ∧
    c1_pass.hook.save_tex = some "OUT".toList ∧
    pl_eval_szexpr (lookup_tex (hook_entry_state c1_priv w_params0) w_params0)
      c1_pass.hook.cond = some 0 ∧
    (hook_hook c1_priv w_params0 sh_env_ok).1 = some 0 ∧
    (0 : ℕ) &&& PL_HOOK_STATUS_SAVE = 0 := by
  decide

/-- C2 (what the code does): the bind loop's inner scans test the LUT and
pass-texture arrays at the outer bind index i instead of the scan index j,
so a name that matches a texture stored at a different index is never
bound; it is bound only when the indices coincide. The spec's design notes
call this a bug, and the claim describes the intended behaviour. -/
theorem c2_bind_scan_misindexed :
    hook_bind_choice [c2_lutA, c2_lutB] [] "B".toList 0 = .bindNone ∧
    (∃ t ∈ [c2_lutA, c2_lutB], t.name = "B".toList) ∧
    "B".toList ≠ "HOOKED".toList ∧
    hook_bind_choice [c2_lutA, c2_lutB] [] "A".toList 0 = .bindLut c2_lutA ∧
    hook_bind_choice [] [c2_ptA, c2_ptB] "B".toList 0 = .bindNone ∧
    (∃ t ∈ [c2_ptA, c2_ptB], t.name = "B".toList) ∧
    hook_bind_choice [] [c2_ptA, c2_ptB] "A".toList 0 = .bindPass c2_ptA := by
  decide

/-- C6: with all collaborator operations succeeding and every matching
pass's cond (and, when it runs, width/height) evaluating successfully, the
invocation with count equal to the number N of matching passes returns
status zero, and every invocation with count below N returns a status word
whose AGAIN bit is set exactly when count + 1 < N. -/
theorem c6_again_accounting (p : hook_priv) (params : pl_hook_params) (env : sh_env)
    (henv : env = sh_env_ok)
    (hok : ∀ hp ∈ p.hook_passes,
      ∃ run, pl_eval_szexpr (lookup_tex (hook_entry_state p params) params)
          hp.hook.cond = some run ∧
        (run ≠ 0 →
          (pl_eval_szexpr (lookup_tex (hook_entry_state p params) params)
              hp.hook.width).isSome = true ∧
          (pl_eval_szexpr (lookup_tex (hook_entry_state p params) params)
              hp.hook.height).isSome = true)) :
    (params.count = (stage_matches p.hook_passes params.stage).length →
      (hook_hook p params env).1 = some 0) ∧
    (params.count < (stage_matches p.hook_passes params.stage).length →
      ∃ v, (hook_hook p params env).1 = some v ∧
        (v &&& PL_HOOK_STATUS_AGAIN ≠ 0 ↔
          params.count + 1 < (stage_matches p.hook_passes params.stage).length)) := by
  subst henv
  unfold hook_hook
  dsimp only
  rw [hook_entry_state_passes]
  constructor
  · intro hcnt
    rw [List.getElem?_eq_none (le_of_eq hcnt.symm)]
  · intro hlt
    rw [List.getElem?_eq_getElem hlt]
    dsimp only
    set pass := (stage_matches p.hook_passes params.stage)[params.count] with hpassdef
    have hmem : pass ∈ p.hook_passes := by
      have h1 : pass ∈ stage_matches p.hook_passes params.stage := List.getElem_mem hlt
      exact (List.mem_filter.mp h1).1
    obtain ⟨run, hrun, hwh⟩ := hok pass hmem
    rw [hrun]
    dsimp only
    by_cases h0 : run = 0
    · rw [if_pos h0]
      by_cases hagain : params.count + 1 <
          (stage_matches p.hook_passes params.stage).length
      · rw [if_pos hagain]
        exact ⟨PL_HOOK_STATUS_AGAIN, rfl, iff_of_true (by decide) hagain⟩
      · rw [if_neg hagain]
        exact ⟨0, rfl, iff_of_false (by decide) hagain⟩
    · rw [if_neg h0]
      rw [if_neg (show ¬((pass.hook.is_compute && !sh_env_ok.try_compute_ok) = true) by
        simp [sh_env_ok])]
      obtain ⟨hwid, hhei⟩ := hwh h0
      obtain ⟨w0, hw0⟩ := Option.isSome_iff_exists.mp hwid
      obtain ⟨h0', hh0⟩ := Option.isSome_iff_exists.mp hhei
      rw [hw0, hh0]
      dsimp only
      rw [if_neg (show ¬((!sh_env_ok.sh_require_ok) = true) by decide)]
      rw [if_neg (show ¬((!hook_bind_all (hook_entry_state p params) sh_env_ok
            pass.hook.bind_tex 0) = true) by
        simp [hook_bind_all_ok (hook_entry_state p params) sh_env_ok rfl])]
      by_cases hagain : params.count + 1 <
          (stage_matches p.hook_passes params.stage).length
      · rw [if_pos hagain]
        by_cases hsv : pass.hook.save_tex.isSome
        · rw [if_pos hsv]
          exact ⟨_, rfl, iff_of_true (by decide) hagain⟩
        · rw [if_neg hsv]
          exact ⟨_, rfl, iff_of_true (by decide) hagain⟩
      · rw [if_neg hagain]
        by_cases hsv : pass.hook.save_tex.isSome
        · rw [if_pos hsv]
          exact ⟨_, rfl, iff_of_false (by decide) hagain⟩
        · rw [if_neg hsv]
          exact ⟨_, rfl, iff_of_false (by decide) hagain⟩

theorem c6_witness :
    (0 = (stage_matches c6w_priv.hook_passes w_params0.stage).length →
      (hook_hook c6w_priv w_params0 sh_env_ok).1 = some 0) ∧
    (0 < (stage_matches c6w_priv.hook_passes w_params0.stage).length →
      ∃ v, (hook_hook c6w_priv w_params0 sh_env_ok).1 = some v ∧
        (v &&& PL_HOOK_STATUS_AGAIN ≠ 0 ↔
          0 + 1 < (stage_matches c6w_priv.hook_passes w_params0.stage).length)) :=
  c6_again_accounting c6w_priv w_params0 sh_env_ok rfl
    (by intro hp hmem
        simp only [c6w_priv, List.mem_singleton] at hmem
        subst hmem
        exact ⟨1, by decide, fun _ => ⟨by decide, by decide⟩⟩)

end Custom
